import Mathlib

/-!
Verification model of the ploggy structured-logging library.

Shallow embedding of:
  src/ploggy/base/levels.py   (Level, DefaultLevels)
  src/ploggy/base/entry.py    (Entry)
  src/ploggy/base/handler.py  (find_caller, Handler)
  src/ploggy/base/logger.py   (Logger.log, Logger.register, Logger.__getattr__)
  src/ploggy/handlers/json.py (JSONEntry, JSONLogger, JSONHandler)

Python values that can appear as log fields are modelled by `PyVal`;
machine-level details (real I/O streams, real stack frames, the clock) are
modelled by explicit data fed to the functions.  Python exceptions are
modelled with `Except`.
-/

namespace Ploggy

/-- A Python value as it occurs in log fields and parameters. `pyStr` below
models Python's `str()` on these values. -/
inductive PyVal where
  | str : String → PyVal
  | int : Int → PyVal
  | bool : Bool → PyVal
  | none : PyVal
deriving DecidableEq

/-- Python `str()` on a `PyVal` (`str(True) = "True"`, `str(None) = "None"`,
integers print as in Lean). -/
def pyStr : PyVal → String
  | .str s => s
  | .int n => toString n
  | .bool true => "True"
  | .bool false => "False"
  | .none => "None"

/-- Python `str.casefold`, restricted to the ASCII names used for levels,
where it coincides with lower-casing each character. -/
def pyCasefold (s : String) : String := ⟨s.data.map Char.toLower⟩

/-- levels.py: `@dataclass class Level: name: str; val: int`. -/
structure Level where
  name : String
  val : Int
deriving DecidableEq

/-- levels.py `Level.__ge__`: compares `val` only. -/
def Level.ge (a b : Level) : Bool := decide (b.val ≤ a.val)

/-- levels.py `Level.__gt__`: compares `val` only. -/
def Level.gt (a b : Level) : Bool := decide (b.val < a.val)

/-- levels.py `Level.__le__`: compares `val` only. -/
def Level.le (a b : Level) : Bool := decide (a.val ≤ b.val)

/-- levels.py `Level.__lt__`: compares `val` only. -/
def Level.lt (a b : Level) : Bool := decide (a.val < b.val)

/-- levels.py `Level.__eq__`: the dataclass-generated equality, which compares
the field tuple `(name, val)` — both the name and the ordinal. -/
def Level.pyEq (a b : Level) : Bool := a.name == b.name && a.val == b.val

/-- levels.py `Level.init`: `[cls(lvl, val) for val, lvl in enumerate(levels)]`. -/
def Level.init (names : List String) : List Level :=
  names.enum.map fun p => { name := p.2, val := (p.1 : Int) }

/-- levels.py: `DefaultLevels = Level.init(["DEBUG","INFO","WARN","ERROR","FATAL"])`. -/
def DefaultLevels : List Level :=
  Level.init ["DEBUG", "INFO", "WARN", "ERROR", "FATAL"]

theorem defaultLevels_eq :
    DefaultLevels =
      [⟨"DEBUG", 0⟩, ⟨"INFO", 1⟩, ⟨"WARN", 2⟩, ⟨"ERROR", 3⟩, ⟨"FATAL", 4⟩] := rfl

/-- levels.py: `DEBUG = DefaultLevels[0]`. -/
def DEBUG : Level := DefaultLevels.get ⟨0, by decide⟩

/-- levels.py: `INFO = DefaultLevels[1]`. -/
def INFO : Level := DefaultLevels.get ⟨1, by decide⟩

/-- levels.py: `WARN = DefaultLevels[2]`. -/
def WARN : Level := DefaultLevels.get ⟨2, by decide⟩

/-- levels.py: `ERROR = DefaultLevels[3]`. -/
def ERROR : Level := DefaultLevels.get ⟨3, by decide⟩

/-- levels.py: `FATAL = DefaultLevels[4]`. -/
def FATAL : Level := DefaultLevels.get ⟨4, by decide⟩

/-! ## Stack frames and the caller resolver (handler.py) -/

/-- One interpreter stack frame / `inspect` frame record: the data
`find_caller` and `JSONHandler.format` read from a frame. -/
structure Frame where
  filename : String
  lineno : Int
  funcname : String
deriving DecidableEq

/-- handler.py: `_srcfile = os.path.normcase(fake_function.__code__.co_filename)`,
the path of the library's own handler module. -/
def srcfileName : String := "ploggy/base/handler.py"

/-- `os.path.normcase`, the identity on POSIX. -/
def normcase (s : String) : String := s

/-- The sentinel `("(unknown file)", 0, "(unknown function)", None)` preset as
`rv` in `find_caller`. -/
def sentinelCaller : String × Int × String × Option String :=
  ("(unknown file)", 0, "(unknown function)", none)

/-- One line of `traceback.print_stack` output for a frame. -/
def frameLine (fr : Frame) : String :=
  "  File \x22" ++ fr.filename ++ "\x22, line " ++ toString fr.lineno ++
    ", in " ++ fr.funcname ++ "\n"

/-- handler.py: the `stack_info` rendering inside `find_caller` — header plus
`traceback.print_stack(f)` (outermost frame first), with one trailing newline
trimmed.  A frame pointer is the list of that frame and all outer frames,
innermost first. -/
def renderStack (f : List Frame) : String :=
  let s := "Stack (most recent call last):\n" ++ String.join (f.reverse.map frameLine)
  if s.endsWith "\n" then s.dropRight 1 else s

/-- handler.py `find_caller`, the scan `while hasattr(f, "f_code")`: skip
frames whose normcased filename equals `_srcfile`; at the first other frame
return its data (raw filename, line, function name, optional stack text);
if the chain runs out, `rv` keeps the sentinel. -/
def scanFrames (stack_info : Bool) : List Frame → String × Int × String × Option String
  | [] => sentinelCaller
  | fr :: rest =>
    if normcase fr.filename == srcfileName then scanFrames stack_info rest
    else (fr.filename, fr.lineno, fr.funcname,
          if stack_info then some (renderStack (fr :: rest)) else none)

/-- handler.py `find_caller`, the loop `while f and stacklevel > 1:
f = f.f_back; stacklevel -= 1`. -/
def walkLevels (stacklevel : Int) : List Frame → List Frame
  | [] => []
  | fr :: rest => if 1 < stacklevel then walkLevels (stacklevel - 1) rest else fr :: rest

/-- handler.py `find_caller(stack_info, stacklevel)`.

The argument `frames` is the interpreter stack at the moment the
`currentframe` lambda executes `sys._getframe(3)`, innermost first:
`frames[0]` is the lambda's own frame, `frames[1]` is `find_caller`,
`frames[2]` is `find_caller`'s caller, and so on.  `sys._getframe(3)` raises
`ValueError` (modelled `.error ()`) when fewer than 4 frames exist; otherwise
`f = currentframe()` is `frames[3]` and `f = f.f_back` moves to `frames[4]`,
after which `orig_f = f`, the stacklevel walk, the `if not f: f = orig_f`
reset, and the source-file skipping scan run as in the source. -/
def find_caller (frames : List Frame) (stack_info : Bool) (stacklevel : Int) :
    Except Unit (String × Int × String × Option String) :=
  if frames.length < 4 then .error ()
  else
    let origF := frames.drop 4
    let f := walkLevels stacklevel origF
    let f := if f.isEmpty then origF else f
    .ok (scanFrames stack_info f)

/-! ## Entries, handlers, writes (entry.py, handler.py) -/

/-- An Entry instance as constructed by `Logger.log`: the base fields
`level` and `message` of entry.py's `Entry`, plus the further named fields
bound from the remaining keyword arguments.  Which names are admissible is
decided by the configured Entry dataclass's signature (the `EntryClass`
below, checked in `constructEntry`): the base `Entry` admits none, a
subclass such as `JSONEntry` admits exactly its declared fields. -/
structure Entry where
  level : Level
  message : PyVal
  fields : List (String × PyVal)
deriving DecidableEq

/-- handler.py: `@dataclass class Handler: level: Level = INFO; pipe: IO = stderr`.
`pid` models the Python object identity of the handler instance; `pipe` is the
identity of the output stream object (IO objects compare by identity). -/
structure Handler where
  pid : Nat
  level : Level
  pipe : Nat
deriving DecidableEq

/-- handler.py `Handler.__eq__`: the dataclass-generated equality, comparing
the field tuple `(level, pipe)` — the level by `Level.__eq__` and the stream
object by identity. -/
def Handler.pyEq (a b : Handler) : Bool := a.level.pyEq b.level && a.pipe == b.pipe

/-- One `print(..., file=self.pipe, flush=True)`: the written text (with the
trailing newline `print` appends) and whether the stream was flushed. -/
structure Write where
  text : String
  flush : Bool
deriving DecidableEq

/-- handler.py `Handler.format`: `return entry.message`. -/
def Handler.format (h : Handler) (lineCtx : String) (e : Entry) : PyVal :=
  e.message

/-- handler.py `Handler.log`: resolve the caller (`find_caller()` with the
defaults, a `ValueError` caught and replaced by the unknown-caller triple),
build `line_ctx`, then `print(self.format(line_ctx, entry), file=self.pipe,
flush=True)`.  `frames` is the interpreter stack at the introspection point
(see `find_caller`); the result is the list of writes performed. -/
def Handler.logRun (h : Handler) (e : Entry) (frames : List Frame) : List Write :=
  let r :=
    match find_caller frames false 1 with
    | .error _ => ("(unknown file)", (0 : Int), "(unknown function)")
    | .ok (fn, lno, func, _) => (fn, lno, func)
  let lineCtx := r.1 ++ ":" ++ toString r.2.1 ++ ":" ++ r.2.2
  [⟨pyStr (h.format lineCtx e) ++ "\n", true⟩]

/-! ## The Logger (logger.py) -/

/-- Python's collection of a call's keyword arguments, left to right: names
already seen raise `TypeError` ("got multiple values for keyword argument"),
modelled `.error ()`. -/
def collectKw : List String → List (String × PyVal) → Except Unit (List (String × PyVal))
  | _, [] => .ok []
  | seen, kv :: rest =>
    if seen.contains kv.1 then .error ()
    else (collectKw (seen ++ [kv.1]) rest).map (kv :: ·)

/-- The signature of the Entry dataclass configured on the logger
(`Logger.Entry`, a class attribute holding a type): the field names the
dataclass declares beyond the base `level` and `message`, and which of those
have no default and are therefore required.  entry.py's base `Entry`
declares none; json.py's `JSONEntry` declares `line`, `scope`, `timestamp`
and `params`, with only `params` defaulted. -/
structure EntryClass where
  extraFields : List String
  extraRequired : List String

/-- entry.py `Entry`: a dataclass with exactly the fields `level` and
`message` — no extra field is accepted and none is required. -/
def baseEntryClass : EntryClass := ⟨[], []⟩

/-- logger.py `Logger.log`, the construction
`self.Entry(level=level, message=message, **self._run_hooks(), **kwargs)`:
the call's keywords are `level`, `message`, then the hook fields, then the
explicit keyword fields.  A repeated keyword name raises `TypeError` while
the keywords are being collected; then the configured Entry dataclass binds
them — a keyword that is not a declared field raises `TypeError`
("unexpected keyword argument"), and a required field left unbound raises
`TypeError` ("missing required argument"). -/
def constructEntry (cls : EntryClass) (level : Level) (message : PyVal)
    (hookFields kwargs : List (String × PyVal)) : Except Unit Entry :=
  match collectKw ["level", "message"] (hookFields ++ kwargs) with
  | .error e => .error e
  | .ok fs =>
    if fs.any fun kv => !(cls.extraFields.contains kv.1) then .error ()
    else if cls.extraRequired.any fun n => !((fs.map Prod.fst).contains n) then .error ()
    else .ok { level := level, message := message, fields := fs }

/-- logger.py: a Logger.  `α` is the type of the data of the logger that its
hooks may read (each hook is called as `hook(self)`); `ctx` is that data.
`handlers`, `hooks`, `Entry` (as its dataclass signature `entryClass`) and
`exit_on` are the attributes the dispatch reads (class attributes resolved
for this instance). -/
structure Logger (α : Type) where
  handlers : List Handler
  hooks : Option (List (String × (α → PyVal)))
  ctx : α
  entryClass : EntryClass
  exit_on : Option Level := none

/-- logger.py `Logger._run_hooks`: if `hooks` is not None, the dict mapping
each hook key to `hook(self)`, in hook order; otherwise `{}`. -/
def Logger.run_hooks {α : Type} (lg : Logger α) : List (String × PyVal) :=
  match lg.hooks with
  | none => []
  | some hs => hs.map fun p => (p.1, p.2 lg.ctx)

/-- One observable action of `Logger.log`: `emit i` is the call
`handler.log(entry)` on the handler at position `i` of the dispatch list;
`exitAction` is the call to `exit_handler()`. -/
inductive LogEvent where
  | emit : Nat → LogEvent
  | exitAction : LogEvent
deriving DecidableEq

/-- logger.py `Logger.log`, the loop `for handler in self.handlers: if
entry.level >= handler.level: handler.log(entry)`, with `i` the position of
the first handler of `hs` in the full dispatch list. -/
def dispatch (entryLevel : Level) : List Handler → Nat → List LogEvent
  | [], _ => []
  | h :: hs, i =>
    (if entryLevel.ge h.level then [LogEvent.emit i] else []) ++
      dispatch entryLevel hs (i + 1)

/-- logger.py `Logger.log`, the final conditional: `if self.exit_on is not
None and self.exit_on == level: self.exit_handler()` — the exit action, as
the list of events it contributes after the dispatch loop. -/
def exitEvents (exit_on : Option Level) (level : Level) : List LogEvent :=
  match exit_on with
  | some l => if l.pyEq level then [LogEvent.exitAction] else []
  | none => []

/-- logger.py `Logger.log`: run the hooks, construct the Entry (a repeated
keyword raises before any handler runs), dispatch to every handler whose
level qualifies in registration order, then, if `exit_on` is not None and
`exit_on == level` (dataclass equality), call `exit_handler`.  Returns the
constructed Entry and the ordered list of observable actions. -/
def Logger.log {α : Type} (lg : Logger α) (level : Level) (message : PyVal)
    (kwargs : List (String × PyVal)) : Except Unit (Entry × List LogEvent) :=
  (constructEntry lg.entryClass level message lg.run_hooks kwargs).map fun entry =>
    (entry, dispatch entry.level lg.handlers 0 ++ exitEvents lg.exit_on level)

/-- Python `handler in self.handlers` for a list of `Handler`s: some element
is the same object or dataclass-equal. -/
def pyContains (hs : List Handler) (h : Handler) : Bool :=
  hs.any fun e => e.pid == h.pid || e.pyEq h

/-- logger.py `Logger.register`: `if handler not in self.handlers:
self.handlers.append(handler)`. -/
def register (hs : List Handler) (h : Handler) : List Handler :=
  if pyContains hs h then hs else hs ++ [h]

/-! ## Dynamic level-name attribute access (logger.py `__getattr__`) -/

/-- logger.py `Logger._levels`: the dict
`{level.name.casefold(): level for level in self.levels}`; a later entry
with the same key overrides an earlier one, and lookup is by exact key. -/
def levelsDict (levels : List Level) (name : String) : Option Level :=
  ((levels.map fun l => (pyCasefold l.name, l)).reverse.find? fun p =>
    p.1 == name).map Prod.snd

/-- Outcome of an attribute access that does not find a value: the Python
exception class that ends the lookup. -/
inductive AttrFail where
  | attributeError : AttrFail
  | recursionError : AttrFail
deriving DecidableEq

/-- logger.py `Logger.__getattr__` with explicit recursion fuel.  On a hit in
`self._levels` it returns the level (the real code returns
`partial(self.log, level)`, i.e. `log` applied to that level).  On a miss it
builds the `AttributeError` message, whose f-string reads
`self._class__.__name__`; `_class__` (a typo for `__class__`) is itself not
an attribute, so the read re-enters `__getattr__` with the name
`"_class__"`.  Exhausted fuel models the interpreter's recursion limit,
`RecursionError`. -/
def getattrFuel (levels : List Level) : Nat → String → Except AttrFail Level
  | 0, _ => .error .recursionError
  | fuel + 1, name =>
    match levelsDict levels name with
    | some lvl => .ok lvl
    | Option.none =>
      match getattrFuel levels fuel "_class__" with
      | .ok _ => .error .attributeError
      | .error e => .error e

/-! ## Shared class-level attributes (logger.py class body) -/

/-- logger.py class body: `handlers: List[Handler] = []` and
`levels: List[Level] = DefaultLevels` are class attributes of `Logger`;
every instance (JSONLogger instances included — `JSONLogger.__init__` only
assigns `scope` and `hooks` on the instance) that was not explicitly given
its own list resolves them to these shared class-level objects. -/
structure ClassState where
  classHandlers : List Handler
  classLevels : List Level

/-- One logger instance's own attribute dict, restricted to the two
attributes of interest: `none` means the instance never assigned the
attribute, so lookup falls through to the class. -/
structure LoggerInst where
  instHandlers : Option (List Handler)
  instLevels : Option (List Level)

/-- Python attribute lookup for `self.handlers`. -/
def LoggerInst.getHandlers (lg : LoggerInst) (st : ClassState) : List Handler :=
  lg.instHandlers.getD st.classHandlers

/-- Python attribute lookup for `self.levels`. -/
def LoggerInst.getLevels (lg : LoggerInst) (st : ClassState) : List Level :=
  lg.instLevels.getD st.classLevels

/-- logger.py `Logger.register` run on an instance: `self.handlers` resolves
through attribute lookup and `append` mutates that very list object — the
class-level list when the instance has none of its own. -/
def registerOn (st : ClassState) (lg : LoggerInst) (h : Handler) :
    ClassState × LoggerInst :=
  match lg.instHandlers with
  | none => ({ st with classHandlers := register st.classHandlers h }, lg)
  | some hs => (st, { lg with instHandlers := some (register hs h) })

/-! ## The JSON specialization (handlers/json.py) -/

/-- json.py `JSONEntry` as an Entry-dataclass signature: beyond `level` and
`message` it declares `line`, `scope`, `timestamp` and `params`; `params`
defaults to None, the other three are required. -/
def JSONEntryClass : EntryClass :=
  ⟨["line", "scope", "timestamp", "params"], ["line", "scope", "timestamp"]⟩

/-- json.py `JSONEntry`: level, the raw `inspect.stack()` snapshot (`line`),
message, scope, timestamp, and the optional params mapping. -/
structure JSONEntry where
  level : Level
  line : List Frame
  message : PyVal
  scope : String
  timestamp : PyVal
  params : Option (List (PyVal × PyVal)) := none
deriving DecidableEq

/-- The mapping returned by `JSONHandler.format`: exactly the keys
`lvl`, `line`, `msg`, `p`, `sc`, `ts`. -/
structure JSONOutput where
  lvl : String
  line : String
  msg : PyVal
  p : List (String × String)
  sc : String
  ts : String
deriving DecidableEq

/-- json.py `JSONHandler`: `level: Level = WARN; pipe: IO = stderr` — the
dataclass field defaults. -/
structure JSONHandlerData where
  level : Level := WARN
  pipe : Nat := 0

/-- json.py `JSONHandler.format`: `caller = entry.line[5]` (an `IndexError`,
modelled `.error ()`, when the snapshot is shorter), params stringified
key and value (or `{}` when `params` is None), and the fixed-key mapping
with the casefolded level name, `"<file>:<line>"`, the message as given,
the scope, and `str(timestamp)`. -/
def JSONHandler.format (e : JSONEntry) : Except Unit JSONOutput :=
  match e.line.get? 5 with
  | Option.none => .error ()
  | some caller =>
    let params :=
      match e.params with
      | Option.none => []
      | some ps => ps.map fun kv => (pyStr kv.1, pyStr kv.2)
    .ok { lvl := pyCasefold e.level.name
          line := caller.filename ++ ":" ++ toString caller.lineno
          msg := e.message
          p := params
          sc := e.scope
          ts := pyStr e.timestamp }

/-! ## Concrete instances used for evaluation -/

/-- A base-Entry logger with an INFO-level and an ERROR-level handler. -/
def lgC1 : Logger Unit :=
  { handlers := [⟨0, INFO, 0⟩, ⟨1, ERROR, 0⟩], hooks := none, ctx := (),
    entryClass := baseEntryClass, exit_on := none }

/-- A logger with one hook named `a` whose Entry class declares the field
`a`, so that a collision with a keyword `a` is the only error source. -/
def lgC3 : Logger Unit :=
  { handlers := [], hooks := some [("a", fun _ => .int 1)], ctx := (),
    entryClass := ⟨["a"], []⟩, exit_on := none }

/-- A logger with one hook named `a` but the base Entry class, which
declares no extra field. -/
def lgC3b : Logger Unit :=
  { handlers := [], hooks := some [("a", fun _ => .int 1)], ctx := (),
    entryClass := baseEntryClass, exit_on := none }

/-- A JSONLogger-style logger: the three hooks of `JSONLogger.__init__`
(`timestamp`, `line`, `scope`) and the `JSONEntry` dataclass signature, as
used by example.py with an explicit `params` keyword. -/
def lgC3j : Logger Unit :=
  { handlers := [],
    hooks := some [("timestamp", fun _ => .str "t0"), ("line", fun _ => .str "snap"),
                   ("scope", fun _ => .str "svc")],
    ctx := (), entryClass := JSONEntryClass, exit_on := none }

/-- A base-Entry logger with one DEBUG-level handler and `exit_on = FATAL`. -/
def lgC4 : Logger Unit :=
  { handlers := [⟨0, DEBUG, 0⟩], hooks := none, ctx := (),
    entryClass := baseEntryClass, exit_on := some FATAL }

/-- A base-Entry logger with one DEBUG-level handler. -/
def lgC7 : Logger Unit :=
  { handlers := [⟨0, DEBUG, 0⟩], hooks := none, ctx := (),
    entryClass := baseEntryClass, exit_on := none }

/-- A JSON entry whose stack snapshot has six frames. -/
def jeC6 : JSONEntry :=
  { level := WARN
    line := [⟨"h.py", 1, "f1"⟩, ⟨"h.py", 2, "f2"⟩, ⟨"h.py", 3, "f3"⟩,
             ⟨"h.py", 4, "f4"⟩, ⟨"h.py", 5, "f5"⟩, ⟨"app.py", 12, "main"⟩]
    message := .str "disk low"
    scope := "svc"
    timestamp := .str "t0"
    params := some [(.str "pct", .int 91)] }

/-- The class state, instances and handler for the shared-attribute scenario:
an empty class handler list and the default registry, two instances with no
instance attributes, one handler. -/
def stC10 : ClassState := ⟨[], DefaultLevels⟩

/-- A logger instance with no instance-level handlers or levels. -/
def lgiC10 : LoggerInst := ⟨none, none⟩

/-- The handler registered in the shared-attribute scenario. -/
def hC10 : Handler := ⟨0, INFO, 0⟩

/-! ## Helper lemmas -/

theorem contains_false_iff (seen : List String) (x : String) :
    seen.contains x = false ↔ x ∉ seen := by
  constructor
  · intro h hmem
    have hel := (List.elem_iff.mpr hmem : seen.elem x = true)
    rw [show seen.contains x = seen.elem x from rfl, hel] at h
    cases h
  · intro hmem
    by_contra hne
    have hcc : seen.contains x = true := by
      cases hcc : seen.contains x
      · exact absurd hcc hne
      · rfl
    exact hmem (List.elem_iff.mp hcc)

theorem mem_dispatch (level : Level) : ∀ (hs : List Handler) (i j : Nat),
    LogEvent.emit j ∈ dispatch level hs i ↔
      ∃ k : Fin hs.length, j = i + k.1 ∧ level.ge (hs.get k).level = true := by
  intro hs
  induction hs with
  | nil =>
    intro i j
    constructor
    · intro hmem; simp [dispatch] at hmem
    · rintro ⟨k, -⟩; exact absurd k.isLt (by simp)
  | cons h hs ih =>
    intro i j
    have hd : dispatch level (h :: hs) i =
        (if level.ge h.level then [LogEvent.emit i] else []) ++ dispatch level hs (i + 1) := rfl
    constructor
    · intro hmem
      rw [hd, List.mem_append] at hmem
      rcases hmem with hin | hin
      · by_cases hge : level.ge h.level = true
        · simp only [hge, if_true, List.mem_singleton, LogEvent.emit.injEq] at hin
          refine ⟨⟨0, Nat.succ_pos _⟩, ?_, hge⟩
          show j = i + 0
          omega
        · simp [hge] at hin
      · rcases (ih (i + 1) j).1 hin with ⟨k, hk1, hk2⟩
        have hlt := k.isLt
        refine ⟨⟨k.1 + 1, by simp only [List.length_cons]; omega⟩, ?_, hk2⟩
        show j = i + (k.1 + 1)
        omega
    · rintro ⟨⟨kv, hkv⟩, hk1, hk2⟩
      rw [hd, List.mem_append]
      cases kv with
      | zero =>
        left
        have hj : j = i + 0 := hk1
        simp only [List.get] at hk2
        simp [hk2, hj]
      | succ kv' =>
        right
        simp only [List.length_cons] at hkv
        have hj : j = i + (kv' + 1) := hk1
        refine (ih (i + 1) j).2 ⟨⟨kv', by omega⟩, ?_, ?_⟩
        · show j = i + 1 + kv'
          omega
        · simpa using hk2

theorem exit_not_mem_dispatch (level : Level) : ∀ (hs : List Handler) (i : Nat),
    LogEvent.exitAction ∉ dispatch level hs i := by
  intro hs
  induction hs with
  | nil => intro i hmem; simp [dispatch] at hmem
  | cons h hs ih =>
    intro i hmem
    have hd : dispatch level (h :: hs) i =
        (if level.ge h.level then [LogEvent.emit i] else []) ++ dispatch level hs (i + 1) := rfl
    rw [hd, List.mem_append] at hmem
    rcases hmem with hin | hin
    · by_cases hge : level.ge h.level = true <;> simp [hge] at hin
    · exact ih (i + 1) hin

theorem append_singleton_eq_middle {α : Type} (x : α) :
    ∀ (l pre post : List α), x ∉ l → l ++ [x] = pre ++ x :: post → post = [] := by
  intro l
  induction l with
  | nil =>
    intro pre post _ heq
    cases pre with
    | nil =>
      simp only [List.nil_append] at heq
      exact (List.cons.inj heq).2.symm
    | cons b pre' =>
      simp only [List.nil_append, List.cons_append] at heq
      rcases List.cons.inj heq with ⟨-, h2⟩
      exact absurd h2.symm (by simp)
  | cons a l ih =>
    intro pre post hnot heq
    cases pre with
    | nil =>
      simp only [List.cons_append, List.nil_append] at heq
      rcases List.cons.inj heq with ⟨h1, -⟩
      exact absurd h1 (by intro h; exact hnot (h ▸ List.mem_cons_self a l))
    | cons b pre' =>
      simp only [List.cons_append] at heq
      rcases List.cons.inj heq with ⟨-, h2⟩
      exact ih pre' post (fun hm => hnot (List.mem_cons_of_mem a hm)) h2

theorem collectKw_ok : ∀ (l : List (String × PyVal)) (seen : List String),
    (seen ++ l.map Prod.fst).Nodup → collectKw seen l = .ok l := by
  intro l
  induction l with
  | nil => intro seen _; rfl
  | cons kv rest ih =>
    intro seen hnd
    have hmem : kv.1 ∉ seen := by
      intro hin
      rw [List.nodup_append] at hnd
      exact hnd.2.2 hin (by simp)
    have hc : seen.contains kv.1 = false := (contains_false_iff seen kv.1).mpr hmem
    have hnd' : ((seen ++ [kv.1]) ++ rest.map Prod.fst).Nodup := by
      have he : seen ++ (kv :: rest).map Prod.fst = (seen ++ [kv.1]) ++ rest.map Prod.fst := by
        simp
      rw [he] at hnd
      exact hnd
    simp [collectKw, hc, ih (seen ++ [kv.1]) hnd', Except.map, hmem]

theorem collectKw_ok_disjoint : ∀ (l : List (String × PyVal)) (seen : List String)
    (out : List (String × PyVal)), collectKw seen l = .ok out →
    ∀ n ∈ l.map Prod.fst, n ∉ seen := by
  intro l
  induction l with
  | nil => intro seen out _ n hn; simp at hn
  | cons kv rest ih =>
    intro seen out hok n hn
    by_cases hc : seen.contains kv.1 = true
    · have hm : kv.1 ∈ seen := List.elem_iff.mp hc
      simp [collectKw, hm] at hok
    · have hc' : seen.contains kv.1 = false := by
        cases hcc : seen.contains kv.1
        · rfl
        · exact absurd hcc hc
      simp only [collectKw, hc', Bool.false_eq_true, if_false] at hok
      cases hrec : collectKw (seen ++ [kv.1]) rest with
      | error e => rw [hrec] at hok; cases hok
      | ok out' =>
        rw [hrec] at hok
        simp only [List.map_cons, List.mem_cons] at hn
        rcases hn with heq | hn
        · exact heq ▸ (contains_false_iff seen kv.1).mp hc'
        · intro hns
          exact ih (seen ++ [kv.1]) out' hrec n hn (List.mem_append_left _ hns)

theorem collectKw_ok_nodup : ∀ (l : List (String × PyVal)) (seen : List String)
    (out : List (String × PyVal)), collectKw seen l = .ok out →
    (l.map Prod.fst).Nodup := by
  intro l
  induction l with
  | nil => intro seen out _; simp
  | cons kv rest ih =>
    intro seen out hok
    by_cases hc : seen.contains kv.1 = true
    · have hm : kv.1 ∈ seen := List.elem_iff.mp hc
      simp [collectKw, hm] at hok
    · have hc' : seen.contains kv.1 = false := by
        cases hcc : seen.contains kv.1
        · rfl
        · exact absurd hcc hc
      simp only [collectKw, hc', Bool.false_eq_true, if_false] at hok
      cases hrec : collectKw (seen ++ [kv.1]) rest with
      | error e => rw [hrec] at hok; cases hok
      | ok out' =>
        have hdisj := collectKw_ok_disjoint rest (seen ++ [kv.1]) out' hrec
        simp only [List.map_cons, List.nodup_cons]
        constructor
        · intro hin
          exact hdisj kv.1 hin (by simp)
        · exact ih (seen ++ [kv.1]) out' hrec

theorem collectKw_ok_eq : ∀ (l : List (String × PyVal)) (seen : List String)
    (out : List (String × PyVal)), collectKw seen l = .ok out → out = l := by
  intro l
  induction l with
  | nil =>
    intro seen out h
    cases h
    rfl
  | cons kv rest ih =>
    intro seen out h
    by_cases hm : kv.1 ∈ seen
    · simp [collectKw, hm] at h
    · have hc : seen.contains kv.1 = false := (contains_false_iff seen kv.1).mpr hm
      simp only [collectKw, hc, Bool.false_eq_true, if_false] at h
      cases hrec : collectKw (seen ++ [kv.1]) rest with
      | error e => rw [hrec] at h; cases h
      | ok out' =>
        rw [hrec] at h
        simp only [Except.map, Except.ok.injEq] at h
        rw [← h, ih (seen ++ [kv.1]) out' hrec]

theorem constructEntry_ok_inv (cls : EntryClass) (level : Level) (msg : PyVal)
    (hookFields kwargs : List (String × PyVal)) (e : Entry) :
    constructEntry cls level msg hookFields kwargs = .ok e →
    e = { level := level, message := msg, fields := hookFields ++ kwargs } := by
  intro h
  unfold constructEntry at h
  cases hc : collectKw ["level", "message"] (hookFields ++ kwargs) with
  | error err => rw [hc] at h; cases h
  | ok fs =>
    rw [hc] at h
    dsimp only at h
    have hfs : fs = hookFields ++ kwargs :=
      collectKw_ok_eq (hookFields ++ kwargs) ["level", "message"] fs hc
    by_cases h1 : (fs.any fun kv => !(cls.extraFields.contains kv.1)) = true
    · rw [if_pos h1] at h; cases h
    · rw [if_neg h1] at h
      by_cases h2 : (cls.extraRequired.any fun n =>
          !((fs.map Prod.fst).contains n)) = true
      · rw [if_pos h2] at h; cases h
      · rw [if_neg h2] at h
        cases h
        rw [hfs]

theorem log_ok_inv {α : Type} (lg : Logger α) (level : Level) (msg : PyVal)
    (kwargs : List (String × PyVal)) (entry : Entry) (evs : List LogEvent) :
    lg.log level msg kwargs = .ok (entry, evs) →
    entry = { level := level, message := msg, fields := lg.run_hooks ++ kwargs } ∧
      evs = dispatch level lg.handlers 0 ++ exitEvents lg.exit_on level := by
  intro hok
  unfold Logger.log at hok
  cases hce : constructEntry lg.entryClass level msg lg.run_hooks kwargs with
  | error e => rw [hce] at hok; cases hok
  | ok entry0 =>
    rw [hce] at hok
    simp only [Except.map, Except.ok.injEq, Prod.mk.injEq] at hok
    rcases hok with ⟨hentry, hevs⟩
    have he0 := constructEntry_ok_inv lg.entryClass level msg lg.run_hooks kwargs
      entry0 hce
    have hE : entry = { level := level, message := msg, fields := lg.run_hooks ++ kwargs } := by
      rw [← hentry, he0]
    refine ⟨hE, ?_⟩
    rw [← hevs, he0]

theorem walkLevels_mem : ∀ (f : List Frame) (lvl : Int) (x : Frame),
    x ∈ walkLevels lvl f → x ∈ f := by
  intro f
  induction f with
  | nil => intro lvl x h; simpa [walkLevels] using h
  | cons fr rest ih =>
    intro lvl x h
    by_cases h1 : 1 < lvl
    · simp only [walkLevels, h1, if_true] at h
      exact List.mem_cons_of_mem fr (ih (lvl - 1) x h)
    · simpa [walkLevels, h1] using h

theorem walkLevels_exhaust : ∀ (f : List Frame) (lvl : Int),
    (f.length : Int) ≤ lvl - 1 → walkLevels lvl f = [] := by
  intro f
  induction f with
  | nil => intro lvl _; rfl
  | cons fr rest ih =>
    intro lvl hle
    simp only [List.length_cons] at hle
    have h1 : 1 < lvl := by push_cast at hle; omega
    simp only [walkLevels, h1, if_true]
    exact ih (lvl - 1) (by push_cast at hle ⊢; omega)

theorem walkLevels_le_one : ∀ (f : List Frame) (lvl : Int), lvl ≤ 1 → walkLevels lvl f = f := by
  intro f lvl hle
  cases f with
  | nil => rfl
  | cons fr rest =>
    have h1 : ¬ (1 < lvl) := by omega
    simp [walkLevels, h1]

theorem scanFrames_sentinel (si : Bool) :
    ∀ (f : List Frame), (∀ fr ∈ f, normcase fr.filename == srcfileName) →
    scanFrames si f = sentinelCaller := by
  intro f
  induction f with
  | nil => intro _; rfl
  | cons fr rest ih =>
    intro hall
    have h1 : normcase fr.filename == srcfileName := hall fr (by simp)
    simp only [scanFrames, h1, if_true]
    exact ih fun x hx => hall x (by simp [hx])

theorem emit_not_mem_exitEvents (exit_on : Option Level) (level : Level) (i : Nat) :
    LogEvent.emit i ∉ exitEvents exit_on level := by
  cases exit_on with
  | none => simp [exitEvents]
  | some l => by_cases hpe : l.pyEq level = true <;> simp [exitEvents, hpe]

theorem emit_last_append (level : Level) (h : Handler) :
    ∀ (hs : List Handler) (i : Nat), level.ge h.level = true →
    LogEvent.emit (i + hs.length) ∈ dispatch level (hs ++ [h]) i := by
  intro hs
  induction hs with
  | nil => intro i hge; simp [dispatch, hge]
  | cons a hs ih =>
    intro i hge
    have hm := ih (i + 1) hge
    have hd : dispatch level ((a :: hs) ++ [h]) i =
        (if level.ge a.level then [LogEvent.emit i] else []) ++
          dispatch level (hs ++ [h]) (i + 1) := rfl
    rw [hd, List.mem_append]
    right
    have hidx : i + (a :: hs).length = i + 1 + hs.length := by
      simp only [List.length_cons]
      omega
    rw [hidx]
    exact hm

/-! ## Claim theorems -/

/-- Claim C9 (counterexample): the dataclass equality of `Level` is not
decided by ordinal only — two levels with equal ordinals but different names
are not equal, because `__eq__` compares the name field too. -/
theorem C9_counterexample_eq_compares_names :
    Level.pyEq ⟨"DEBUG", 0⟩ ⟨"INFO", 0⟩ = false ∧
    (Level.mk "DEBUG" 0).val = (Level.mk "INFO" 0).val := by
  exact ⟨rfl, rfl⟩

/-- Claim C9 (amended): `Level.init` assigns ordinal = position starting
at 0; the order comparisons `<`, `<=`, `>`, `>=` are decided by ordinal
only; equality is the structural dataclass equality over both name and
ordinal (names ARE compared in equality); and for ordinals `oa < ob`:
`a < b`, `b > a`, and not `a == b` in either direction. -/
theorem C9_level_order :
    (∀ (names : List String), (Level.init names).length = names.length ∧
      ∀ (i : Nat) (hi : i < (Level.init names).length) (hn : i < names.length),
        (Level.init names).get ⟨i, hi⟩ = ⟨names.get ⟨i, hn⟩, (i : Int)⟩) ∧
    (∀ a b : Level,
      (a.lt b = true ↔ a.val < b.val) ∧ (a.le b = true ↔ a.val ≤ b.val) ∧
      (a.gt b = true ↔ b.val < a.val) ∧ (a.ge b = true ↔ b.val ≤ a.val) ∧
      (a.pyEq b = true ↔ a.name = b.name ∧ a.val = b.val)) ∧
    (∀ a b : Level, a.val < b.val →
      a.lt b = true ∧ b.gt a = true ∧ a.pyEq b = false ∧ b.pyEq a = false) := by
  refine ⟨?_, ?_, ?_⟩
  · intro names
    refine ⟨by simp [Level.init], ?_⟩
    intro i hi hn
    simp [Level.init, List.get_eq_getElem, List.getElem_map, List.getElem_enum]
  · intro a b
    refine ⟨by simp [Level.lt], by simp [Level.le], by simp [Level.gt],
      by simp [Level.ge], ?_⟩
    simp [Level.pyEq]
  · intro a b hab
    have hv1 : (a.val == b.val) = false := by
      simp only [beq_eq_false_iff_ne, ne_eq]
      omega
    have hv2 : (b.val == a.val) = false := by
      simp only [beq_eq_false_iff_ne, ne_eq]
      omega
    refine ⟨by simp [Level.lt]; omega, by simp [Level.gt]; omega, ?_, ?_⟩
    · simp [Level.pyEq, hv1]
    · simp [Level.pyEq, hv2]

/-- Witness for C9_level_order at concrete inputs. -/
theorem C9_level_order_witness :
    (Level.init ["TRACE", "NOTICE"]).get ⟨1, by decide⟩ = ⟨"NOTICE", 1⟩ ∧
    (Level.lt ⟨"A", 0⟩ ⟨"B", 1⟩ = true ∧ Level.gt ⟨"B", 1⟩ ⟨"A", 0⟩ = true ∧
      Level.pyEq ⟨"A", 0⟩ ⟨"B", 1⟩ = false ∧ Level.pyEq ⟨"B", 1⟩ ⟨"A", 0⟩ = false) := by
  constructor
  · exact ((C9_level_order.1 ["TRACE", "NOTICE"]).2 1 (by decide) (by decide)).trans (by decide)
  · exact C9_level_order.2.2 ⟨"A", 0⟩ ⟨"B", 1⟩ (by decide)

/-- Claim C8 (counterexample): the duplicate check of `register` is not by
identity — a second handler instance with a different identity but equal
dataclass fields (same level, same pipe object) is NOT appended. -/
theorem C8_counterexample_identity_dedup :
    register (register [] ⟨1, INFO, 0⟩) ⟨2, INFO, 0⟩ = [⟨1, INFO, 0⟩] ∧
    (⟨1, INFO, 0⟩ : Handler).pid ≠ (⟨2, INFO, 0⟩ : Handler).pid := by
  exact ⟨rfl, by decide⟩

/-- Claim C8 (amended): `register` is idempotent and dedups by dataclass
equality (equal level and identical pipe), which subsumes identity:
registering the same handler twice leaves the list unchanged, a handler not
equal to any registered one is appended at the end, and a log call on a
doubly-registered handler dispatches to it exactly once. -/
theorem C8_register_dedup_by_equality :
    (∀ (hs : List Handler) (h : Handler), register (register hs h) h = register hs h) ∧
    (∀ (hs : List Handler) (h : Handler),
      pyContains hs h = false → register hs h = hs ++ [h]) ∧
    (∀ (hs : List Handler) (h : Handler),
      pyContains hs h = true → register hs h = hs) ∧
    (∀ (h : Handler) (level : Level),
      dispatch level (register (register [] h) h) 0 =
        if level.ge h.level then [LogEvent.emit 0] else []) := by
  have hself : ∀ (hs : List Handler) (h : Handler), pyContains (hs ++ [h]) h = true := by
    intro hs h
    simp [pyContains, List.any_append]
  refine ⟨?_, ?_, ?_, ?_⟩
  · intro hs h
    by_cases hc : pyContains hs h = true
    · simp [register, hc]
    · have hc' : pyContains hs h = false := by
        cases hcc : pyContains hs h
        · rfl
        · exact absurd hcc hc
      simp [register, hc', hself hs h]
  · intro hs h hc
    simp [register, hc]
  · intro hs h hc
    simp [register, hc]
  · intro h level
    have h0 : register (register [] h) h = [h] := by
      have h1 : register [] h = [h] := by simp [register, pyContains]
      rw [h1]
      have h2 : pyContains [h] h = true := hself [] h
      simp [register, h2]
    rw [h0]
    by_cases hge : level.ge h.level = true <;> simp [dispatch, hge]

/-- Witness for C8_register_dedup_by_equality at concrete inputs. -/
theorem C8_register_witness :
    (pyContains [] ⟨1, INFO, 0⟩ = false ∧
      register [] ⟨1, INFO, 0⟩ = [] ++ [⟨1, INFO, 0⟩]) ∧
    (pyContains [⟨1, INFO, 0⟩] ⟨1, INFO, 0⟩ = true ∧
      register [⟨1, INFO, 0⟩] ⟨1, INFO, 0⟩ = [⟨1, INFO, 0⟩]) :=
  ⟨⟨by decide, C8_register_dedup_by_equality.2.1 [] ⟨1, INFO, 0⟩ (by decide)⟩,
   ⟨by decide, C8_register_dedup_by_equality.2.2.1 [⟨1, INFO, 0⟩] ⟨1, INFO, 0⟩ (by decide)⟩⟩

/-- Claim C1: on a `Logger.log` call that constructs its entry, a handler at
position `i` of the dispatch list is invoked (an `emit i` event occurs)
if and only if `entry.level >= handler.level` under the ordinal order, and a
handler is never invoked for an entry whose level is strictly below its
minimum level. -/
theorem C1_dispatch_filter {α : Type} (lg : Logger α) (level : Level) (msg : PyVal)
    (kwargs : List (String × PyVal)) (entry : Entry) (evs : List LogEvent) :
    lg.log level msg kwargs = .ok (entry, evs) →
    ∀ (i : Nat) (hi : i < lg.handlers.length),
      (LogEvent.emit i ∈ evs ↔
        (entry.level).ge ((lg.handlers.get ⟨i, hi⟩).level) = true) ∧
      ((entry.level).lt ((lg.handlers.get ⟨i, hi⟩).level) = true →
        LogEvent.emit i ∉ evs) := by
  intro hok i hi
  rcases log_ok_inv lg level msg kwargs entry evs hok with ⟨hentry, hevs⟩
  have hlevel : entry.level = level := by rw [hentry]
  have hmem : LogEvent.emit i ∈ evs ↔ LogEvent.emit i ∈ dispatch level lg.handlers 0 := by
    rw [hevs, List.mem_append]
    constructor
    · rintro (hm | hm)
      · exact hm
      · exact absurd hm (emit_not_mem_exitEvents lg.exit_on level i)
    · exact Or.inl
  have hiff : LogEvent.emit i ∈ evs ↔ level.ge ((lg.handlers.get ⟨i, hi⟩).level) = true := by
    rw [hmem, mem_dispatch level lg.handlers 0 i]
    constructor
    · rintro ⟨k, hk1, hk2⟩
      have hki : k = ⟨i, hi⟩ := by
        apply Fin.ext
        simp only []
        omega
      rw [← hki]
      exact hk2
    · intro hge
      refine ⟨⟨i, hi⟩, ?_, hge⟩
      show i = 0 + i
      omega
  constructor
  · rw [hlevel]
    exact hiff
  · intro hlt hm
    have hge := hiff.mp hm
    rw [hlevel] at hlt
    simp only [Level.ge, decide_eq_true_eq] at hge
    simp only [Level.lt, decide_eq_true_eq] at hlt
    omega

/-- Witness for C1_dispatch_filter at a concrete logger. -/
theorem C1_dispatch_filter_witness :
    (LogEvent.emit 0 ∈ [LogEvent.emit 0] ↔ Level.ge INFO INFO = true) ∧
    (Level.lt INFO INFO = true → LogEvent.emit 0 ∉ [LogEvent.emit 0]) :=
  C1_dispatch_filter lgC1 INFO (.str "m") [] ⟨INFO, .str "m", []⟩ [LogEvent.emit 0]
    rfl 0 (by decide)

/-- Claim C4: with `exit_on` configured, the exit action occurs if and only
if the configured level equals (Python dataclass equality) the logged level,
and when it occurs it is the last event — strictly after every qualifying
handler emission. -/
theorem C4_exit_after_dispatch {α : Type} (lg : Logger α) (exitLvl level : Level)
    (msg : PyVal) (kwargs : List (String × PyVal)) (entry : Entry)
    (evs : List LogEvent) :
    lg.exit_on = some exitLvl →
    lg.log level msg kwargs = .ok (entry, evs) →
    ((LogEvent.exitAction ∈ evs) ↔ exitLvl.pyEq level = true) ∧
    (∀ pre post, evs = pre ++ LogEvent.exitAction :: post → post = []) := by
  intro hx hok
  rcases log_ok_inv lg level msg kwargs entry evs hok with ⟨-, hevs⟩
  rw [hx] at hevs
  by_cases hpe : exitLvl.pyEq level = true
  · have hevs' : evs = dispatch level lg.handlers 0 ++ [LogEvent.exitAction] := by
      rw [hevs]
      simp [exitEvents, hpe]
    constructor
    · rw [hevs']
      simp [hpe]
    · intro pre post heq
      exact append_singleton_eq_middle LogEvent.exitAction (dispatch level lg.handlers 0)
        pre post (exit_not_mem_dispatch level lg.handlers 0) (hevs' ▸ heq)
  · have hpe' : exitLvl.pyEq level = false := by
      cases hcc : exitLvl.pyEq level
      · rfl
      · exact absurd hcc hpe
    have hevs' : evs = dispatch level lg.handlers 0 := by
      rw [hevs]
      simp [exitEvents, hpe']
    constructor
    · rw [hevs']
      simp only [hpe', Bool.false_eq_true, iff_false]
      exact exit_not_mem_dispatch level lg.handlers 0
    · intro pre post heq
      have hmem : LogEvent.exitAction ∈ dispatch level lg.handlers 0 := by
        rw [← hevs']
        rw [heq]
        simp
      exact absurd hmem (exit_not_mem_dispatch level lg.handlers 0)

/-- Witness for C4_exit_after_dispatch at a concrete logger. -/
theorem C4_exit_after_dispatch_witness :
    ((LogEvent.exitAction ∈ [LogEvent.emit 0, LogEvent.exitAction]) ↔
      Level.pyEq FATAL FATAL = true) ∧
    (∀ pre post,
      [LogEvent.emit 0, LogEvent.exitAction] = pre ++ LogEvent.exitAction :: post →
      post = []) :=
  C4_exit_after_dispatch lgC4 FATAL FATAL (.str "boom") []
    ⟨FATAL, .str "boom", []⟩ [LogEvent.emit 0, LogEvent.exitAction] rfl rfl

/-- Claim C3 (counterexample): a hook-produced field name (`a`) colliding
with an explicitly passed keyword field name makes `Logger.log` raise a
`TypeError` (duplicate keyword argument) — the call does not succeed and the
keyword value does not override the hook value. -/
theorem C3_counterexample_collision_raises :
    Logger.log lgC3 DEBUG (.str "m") [("a", .int 2)] = .error () := rfl

/-- Claim C3 (amended): the constructed Entry's field set is the union of
the hook fields and the keyword fields (hook fields first), and the call
succeeds, exactly when all names are pairwise distinct (including the
reserved `level`/`message`), every hook or keyword name is a field declared
by the configured Entry dataclass, and every required Entry field is
supplied.  A hook-produced name colliding with an explicit keyword name
raises `TypeError` (duplicate keyword argument) — the keyword value does not
override and no entry is constructed; a name not declared by the Entry class
(in particular any hook or keyword under the base `Entry`) likewise raises
`TypeError`. -/
theorem C3_fields_union_or_raise {α : Type} (lg : Logger α) (level : Level)
    (msg : PyVal) (kwargs : List (String × PyVal)) :
    (("level" :: "message" :: (lg.run_hooks ++ kwargs).map Prod.fst).Nodup →
      (∀ n ∈ (lg.run_hooks ++ kwargs).map Prod.fst, n ∈ lg.entryClass.extraFields) →
      (∀ n ∈ lg.entryClass.extraRequired, n ∈ (lg.run_hooks ++ kwargs).map Prod.fst) →
      ∃ evs, lg.log level msg kwargs =
        .ok ({ level := level, message := msg,
               fields := lg.run_hooks ++ kwargs }, evs)) ∧
    (∀ n, n ∈ (lg.run_hooks).map Prod.fst → n ∈ kwargs.map Prod.fst →
      lg.log level msg kwargs = .error ()) ∧
    (∀ n, n ∈ (lg.run_hooks ++ kwargs).map Prod.fst →
      n ∉ lg.entryClass.extraFields →
      lg.log level msg kwargs = .error ()) := by
  refine ⟨?_, ?_, ?_⟩
  · intro hnd hdecl hreq
    have hok : collectKw ["level", "message"] (lg.run_hooks ++ kwargs) =
        .ok (lg.run_hooks ++ kwargs) :=
      collectKw_ok (lg.run_hooks ++ kwargs) ["level", "message"] hnd
    have h1 : ((lg.run_hooks ++ kwargs).any fun kv =>
        !(lg.entryClass.extraFields.contains kv.1)) = false := by
      rw [List.any_eq_false]
      intro kv hkv
      have hcc : lg.entryClass.extraFields.contains kv.1 = true :=
        List.elem_iff.mpr (hdecl kv.1 (List.mem_map_of_mem Prod.fst hkv))
      rw [hcc]
      decide
    have h2 : (lg.entryClass.extraRequired.any fun n =>
        !(((lg.run_hooks ++ kwargs).map Prod.fst).contains n)) = false := by
      rw [List.any_eq_false]
      intro n hn
      have hcc : ((lg.run_hooks ++ kwargs).map Prod.fst).contains n = true :=
        List.elem_iff.mpr (hreq n hn)
      rw [hcc]
      decide
    refine ⟨dispatch level lg.handlers 0 ++ exitEvents lg.exit_on level, ?_⟩
    have hce : constructEntry lg.entryClass level msg lg.run_hooks kwargs =
        .ok { level := level, message := msg, fields := lg.run_hooks ++ kwargs } := by
      unfold constructEntry
      rw [hok]
      dsimp only
      rw [if_neg (by rw [h1]; exact Bool.false_ne_true),
        if_neg (by rw [h2]; exact Bool.false_ne_true)]
    unfold Logger.log
    rw [hce]
    rfl
  · intro n hn1 hn2
    cases hc : collectKw ["level", "message"] (lg.run_hooks ++ kwargs) with
    | ok out =>
      have hnd := collectKw_ok_nodup (lg.run_hooks ++ kwargs) ["level", "message"] out hc
      rw [List.map_append, List.nodup_append] at hnd
      exact absurd hn2 (hnd.2.2 hn1)
    | error e =>
      cases e
      have hce : constructEntry lg.entryClass level msg lg.run_hooks kwargs =
          .error () := by
        unfold constructEntry
        rw [hc]
      unfold Logger.log
      rw [hce]
      rfl
  · intro n hn hnotdecl
    cases hc : collectKw ["level", "message"] (lg.run_hooks ++ kwargs) with
    | error e =>
      cases e
      have hce : constructEntry lg.entryClass level msg lg.run_hooks kwargs =
          .error () := by
        unfold constructEntry
        rw [hc]
      unfold Logger.log
      rw [hce]
      rfl
    | ok fs =>
      have hfs : fs = lg.run_hooks ++ kwargs :=
        collectKw_ok_eq (lg.run_hooks ++ kwargs) ["level", "message"] fs hc
      have h1 : (fs.any fun kv => !(lg.entryClass.extraFields.contains kv.1)) = true := by
        rw [List.any_eq_true]
        rcases List.mem_map.mp (hfs ▸ hn) with ⟨kv, hkv, hkveq⟩
        refine ⟨kv, hkv, ?_⟩
        have hcc : lg.entryClass.extraFields.contains kv.1 = false := by
          rw [hkveq]
          exact (contains_false_iff _ _).mpr hnotdecl
        show (!(lg.entryClass.extraFields.contains kv.1)) = true
        rw [hcc]
        rfl
      have hce : constructEntry lg.entryClass level msg lg.run_hooks kwargs =
          .error () := by
        unfold constructEntry
        rw [hc]
        dsimp only
        rw [if_pos h1]
      unfold Logger.log
      rw [hce]
      rfl

/-- Witness for C3_fields_union_or_raise at the repository's configurations:
a JSONLogger-style call with `params` succeeds with the union of hook and
keyword fields; a hook/keyword collision raises; a hooked call on the base
Entry class raises. -/
theorem C3_fields_union_or_raise_witness :
    (∃ evs, Logger.log lgC3j WARN (.str "disk low") [("params", .none)] =
      .ok ({ level := WARN, message := .str "disk low",
             fields := [("timestamp", .str "t0"), ("line", .str "snap"),
                        ("scope", .str "svc"), ("params", .none)] }, evs)) ∧
    Logger.log lgC3 DEBUG (.str "m") [("a", .int 2)] = .error () ∧
    Logger.log lgC3b DEBUG (.str "m") [] = .error () :=
  ⟨(C3_fields_union_or_raise lgC3j WARN (.str "disk low") [("params", .none)]).1
      (by decide) (by decide) (by decide),
   (C3_fields_union_or_raise lgC3 DEBUG (.str "m") [("a", .int 2)]).2.1 "a"
     (by decide) (by decide),
   (C3_fields_union_or_raise lgC3b DEBUG (.str "m") []).2.2 "a"
     (by decide) (by decide)⟩

/-- Claim C5 (counterexample): `find_caller` is not total — on an empty (or
any fewer-than-4-frame) interpreter stack, `sys._getframe(3)` raises
`ValueError` instead of returning the sentinel; and when the stack has fewer
frames than `stacklevel`, the walk restarts from the original start frame
and resolves a real caller instead of returning the sentinel. -/
theorem C5_counterexample_shallow_stack :
    find_caller [] false 1 = .error () ∧
    find_caller [⟨"a.py", 1, "lam"⟩, ⟨"b.py", 2, "fc"⟩, ⟨"c.py", 3, "hl"⟩,
        ⟨"d.py", 4, "x"⟩, ⟨"ext.py", 7, "main"⟩] false 10 =
      .ok ("ext.py", 7, "main", none) ∧
    ("ext.py", (7 : Int), "main", (none : Option String)) ≠ sentinelCaller := by
  exact ⟨rfl, rfl, by decide⟩

/-- Claim C5 (amended): `find_caller` raises `ValueError` exactly when the
interpreter stack has fewer than 4 frames; with at least 4 frames it never
raises, and returns the sentinel whenever every frame beyond the
introspection machinery belongs to the library's own source file (in
particular when the scan exhausts the stack); when `stacklevel` exceeds the
frames available, the walk restarts from the original start frame and the
result equals that of `stacklevel = 1`. -/
theorem C5_find_caller_behavior : ∀ (frames : List Frame) (si : Bool) (lvl : Int),
    (find_caller frames si lvl = .error () ↔ frames.length < 4) ∧
    (4 ≤ frames.length →
      (∀ fr ∈ frames.drop 4, normcase fr.filename == srcfileName) →
      find_caller frames si lvl = .ok sentinelCaller) ∧
    (((frames.drop 4).length : Int) ≤ lvl - 1 →
      find_caller frames si lvl = find_caller frames si 1) := by
  intro frames si lvl
  by_cases hlen : frames.length < 4
  · refine ⟨⟨fun _ => hlen, fun _ => by simp [find_caller, hlen]⟩,
      fun h4 => absurd h4 (by omega), fun _ => by simp [find_caller, hlen]⟩
  · refine ⟨⟨?_, fun hl => absurd hl hlen⟩, ?_, ?_⟩
    · intro herr
      simp [find_caller, hlen] at herr
    · intro _ hall
      simp only [find_caller, hlen, if_false]
      congr 1
      by_cases he : (walkLevels lvl (frames.drop 4)).isEmpty = true
      · simp only [he, if_true]
        exact scanFrames_sentinel si _ hall
      · simp only [he, if_false]
        exact scanFrames_sentinel si _
          (fun x hx => hall x (walkLevels_mem (frames.drop 4) lvl x hx))
    · intro hexh
      have hw : walkLevels lvl (frames.drop 4) = [] :=
        walkLevels_exhaust (frames.drop 4) lvl hexh
      have hw1 : walkLevels 1 (frames.drop 4) = frames.drop 4 :=
        walkLevels_le_one (frames.drop 4) 1 le_rfl
      simp only [find_caller, hlen, if_false, hw, hw1, List.isEmpty_nil, if_true]
      by_cases ho : (frames.drop 4).isEmpty = true <;> simp [ho]

/-- Witness for C5_find_caller_behavior at concrete stacks. -/
theorem C5_find_caller_behavior_witness :
    find_caller [⟨"a.py", 1, "lam"⟩, ⟨"b.py", 2, "fc"⟩, ⟨"c.py", 3, "hl"⟩,
        ⟨"d.py", 4, "x"⟩, ⟨"ploggy/base/handler.py", 5, "inner"⟩] false 1 =
      .ok sentinelCaller ∧
    find_caller [⟨"a.py", 1, "lam"⟩, ⟨"b.py", 2, "fc"⟩, ⟨"c.py", 3, "hl"⟩,
        ⟨"d.py", 4, "x"⟩, ⟨"ext.py", 7, "main"⟩] false 99 =
      find_caller [⟨"a.py", 1, "lam"⟩, ⟨"b.py", 2, "fc"⟩, ⟨"c.py", 3, "hl"⟩,
        ⟨"d.py", 4, "x"⟩, ⟨"ext.py", 7, "main"⟩] false 1 :=
  ⟨(C5_find_caller_behavior _ false 1).2.1 (by decide) (by decide),
   (C5_find_caller_behavior _ false 99).2.2 (by decide)⟩

/-- Claim C6: for a JSONEntry whose raw stack snapshot reaches the fixed
offset 5, `JSONHandler.format` returns the mapping with exactly the keys
`lvl` (casefolded level name), `line` (`"<file>:<line>"` from snapshot index
5), `msg` (the message as given), `p` (params with keys and values both
stringified), `sc` (the scope), `ts` (stringified timestamp); and the
handler's default minimum level is WARN. -/
theorem C6_json_format (e : JSONEntry) (h5 : 5 < e.line.length) :
    JSONHandler.format e =
      .ok { lvl := pyCasefold e.level.name,
            line := (e.line.get ⟨5, h5⟩).filename ++ ":" ++
              toString (e.line.get ⟨5, h5⟩).lineno,
            msg := e.message,
            p := (e.params.getD []).map fun kv => (pyStr kv.1, pyStr kv.2),
            sc := e.scope,
            ts := pyStr e.timestamp } ∧
    ({} : JSONHandlerData).level = WARN := by
  constructor
  · have hg : e.line[5]? = some (e.line.get ⟨5, h5⟩) := by
      rw [List.getElem?_eq_getElem h5]
      simp [List.get_eq_getElem]
    cases hp : e.params with
    | none => simp [JSONHandler.format, hg, hp, Option.getD]
    | some ps => simp [JSONHandler.format, hg, hp, Option.getD]
  · rfl

/-- Witness for C6_json_format at a concrete entry. -/
theorem C6_json_format_witness :
    JSONHandler.format jeC6 =
      .ok { lvl := "warn", line := "app.py:12", msg := .str "disk low",
            p := [("pct", "91")], sc := "svc", ts := "t0" } ∧
    ({} : JSONHandlerData).level = WARN :=
  C6_json_format jeC6 (by decide)

/-- Claim C7 (counterexample): `Handler.log` performs no level check — called
directly with an entry whose level is below the handler's minimum level, it
still formats and writes the entry. -/
theorem C7_counterexample_low_level_writes :
    Handler.logRun ⟨0, WARN, 0⟩ { level := INFO, message := .str "m", fields := [] } [] =
      [{ text := "m" ++ "\n", flush := true }] ∧
    Level.ge INFO WARN = false := by
  exact ⟨rfl, rfl⟩

/-- Claim C7 (amended): `Handler.log` writes unconditionally — exactly one
formatted line with an immediate flush, regardless of the entry's level; the
acceptance check `entry.level >= handler.level` is performed by `Logger.log`,
which invokes a handler only when the entry's level is accepted. -/
theorem C7_emit_unconditional_logger_filters :
    (∀ (h : Handler) (e : Entry) (frames : List Frame),
      h.logRun e frames = [{ text := pyStr e.message ++ "\n", flush := true }]) ∧
    (∀ (α : Type) (lg : Logger α) (level : Level) (msg : PyVal)
      (kwargs : List (String × PyVal)) (entry : Entry) (evs : List LogEvent) (i : Nat),
      lg.log level msg kwargs = .ok (entry, evs) → LogEvent.emit i ∈ evs →
      ∃ hi : i < lg.handlers.length,
        (entry.level).ge ((lg.handlers.get ⟨i, hi⟩).level) = true) := by
  constructor
  · intro h e frames
    rfl
  · intro α lg level msg kwargs entry evs i hok hm
    rcases log_ok_inv lg level msg kwargs entry evs hok with ⟨hentry, hevs⟩
    rw [hevs, List.mem_append] at hm
    rcases hm with hm | hm
    · rcases (mem_dispatch level lg.handlers 0 i).mp hm with ⟨k, hk1, hk2⟩
      have hik : i = k.1 := by omega
      have hi : i < lg.handlers.length := by rw [hik]; exact k.isLt
      refine ⟨hi, ?_⟩
      have hkk : (⟨i, hi⟩ : Fin lg.handlers.length) = k := Fin.ext hik
      rw [show entry.level = level from by rw [hentry], hkk]
      exact hk2
    · exact absurd hm (emit_not_mem_exitEvents lg.exit_on level i)

/-- Witness for C7_emit_unconditional_logger_filters at concrete inputs. -/
theorem C7_emit_unconditional_witness :
    Handler.logRun ⟨0, WARN, 0⟩ { level := WARN, message := .str "w", fields := [] } [] =
      [{ text := "w" ++ "\n", flush := true }] ∧
    ∃ hi : 0 < lgC7.handlers.length,
      Level.ge INFO ((lgC7.handlers.get ⟨0, hi⟩).level) = true :=
  ⟨C7_emit_unconditional_logger_filters.1 ⟨0, WARN, 0⟩
      { level := WARN, message := .str "w", fields := [] } [],
   C7_emit_unconditional_logger_filters.2 Unit lgC7 INFO (.str "m") []
      ⟨INFO, .str "m", []⟩ [LogEvent.emit 0] 0 rfl (by decide)⟩

theorem getattr_class_recursion (levels : List Level)
    (hdict : levelsDict levels "_class__" = none) :
    ∀ (fuel : Nat), getattrFuel levels fuel "_class__" = .error .recursionError := by
  intro fuel
  induction fuel with
  | zero => rfl
  | succ n ih => simp [getattrFuel, hdict, ih]

/-- Claim C2 (code bug): for a default-registry logger, the attribute lookup
of any name that is not a casefolded level name — including the registered
but upper-case name "INFO" (the lookup is not case-insensitive) — never
raises `AttributeError`: building the error message reads the misspelled
`self._class__`, which re-enters `__getattr__` and recurses for every
recursion budget, ending in `RecursionError`.  Lower-case names resolve to
`log` applied to the matching level. -/
theorem C2_getattr_recursion_bug : ∀ (fuel : Nat),
    getattrFuel DefaultLevels fuel "INFO" = .error .recursionError ∧
    getattrFuel DefaultLevels fuel "bogus" = .error .recursionError ∧
    getattrFuel DefaultLevels (fuel + 1) "info" = .ok INFO := by
  have hcls : levelsDict DefaultLevels "_class__" = none := by decide
  have hI : levelsDict DefaultLevels "INFO" = none := by decide
  have hb : levelsDict DefaultLevels "bogus" = none := by decide
  have hinfo : levelsDict DefaultLevels "info" = some INFO := by decide
  intro fuel
  refine ⟨?_, ?_, ?_⟩
  · cases fuel with
    | zero => rfl
    | succ n => simp [getattrFuel, hI, getattr_class_recursion DefaultLevels hcls n]
  · cases fuel with
    | zero => rfl
    | succ n => simp [getattrFuel, hb, getattr_class_recursion DefaultLevels hcls n]
  · simp [getattrFuel, hinfo]

/-- Claim C10: two logger instances that never assigned their own handler
list (base Logger and JSONLogger instances alike) resolve `self.handlers`
to the one shared class-level list: after `register(h)` through the first
instance, the second instance sees the updated list, its level registry is
the same shared class registry, and a subsequent log call on the second
instance at a level the handler accepts dispatches to `h` (appended at the
end of the class list). -/
theorem C10_shared_class_handlers (st : ClassState) (lg1 lg2 : LoggerInst)
    (h : Handler) (h1 : lg1.instHandlers = none) (h2 : lg2.instHandlers = none)
    (h1L : lg1.instLevels = none) (h2L : lg2.instLevels = none) :
    (lg2.getHandlers ((registerOn st lg1 h).1) = register st.classHandlers h ∧
     lg1.getHandlers ((registerOn st lg1 h).1) =
       lg2.getHandlers ((registerOn st lg1 h).1) ∧
     lg1.getLevels ((registerOn st lg1 h).1) =
       lg2.getLevels ((registerOn st lg1 h).1)) ∧
    (pyContains st.classHandlers h = false →
      ∀ (level : Level) (msg : PyVal),
        Logger.log { handlers := lg2.getHandlers ((registerOn st lg1 h).1),
                     hooks := none, ctx := (), entryClass := baseEntryClass,
                     exit_on := none } level msg [] =
          .ok ({ level := level, message := msg, fields := [] },
               dispatch level (st.classHandlers ++ [h]) 0) ∧
        (level.ge h.level = true →
          LogEvent.emit st.classHandlers.length ∈
            dispatch level (st.classHandlers ++ [h]) 0)) := by
  have hreg : (registerOn st lg1 h).1 =
      { st with classHandlers := register st.classHandlers h } := by
    simp [registerOn, h1]
  have hget2 : lg2.getHandlers ((registerOn st lg1 h).1) =
      register st.classHandlers h := by
    rw [hreg]
    simp [LoggerInst.getHandlers, h2]
  refine ⟨⟨hget2, ?_, ?_⟩, ?_⟩
  · rw [hreg]
    simp [LoggerInst.getHandlers, h1, h2]
  · rw [hreg]
    simp [LoggerInst.getLevels, h1L, h2L]
  · intro hc level msg
    have happend : register st.classHandlers h = st.classHandlers ++ [h] := by
      simp [register, hc]
    constructor
    · rw [hget2, happend]
      simp [Logger.log, constructEntry, collectKw, Logger.run_hooks, exitEvents,
        baseEntryClass, Except.map]
    · intro hge
      have hm := emit_last_append level h st.classHandlers 0 hge
      simpa using hm

/-- Witness for C10_shared_class_handlers at a concrete class state. -/
theorem C10_shared_class_handlers_witness :
    Logger.log { handlers := lgiC10.getHandlers ((registerOn stC10 lgiC10 hC10).1),
                 hooks := none, ctx := (), entryClass := baseEntryClass,
                 exit_on := none } WARN (.str "m") [] =
      .ok ({ level := WARN, message := .str "m", fields := [] },
           dispatch WARN ([] ++ [hC10]) 0) ∧
    LogEvent.emit 0 ∈ dispatch WARN ([] ++ [hC10]) 0 := by
  have hw := (C10_shared_class_handlers stC10 lgiC10 lgiC10 hC10
    rfl rfl rfl rfl).2 (by decide) WARN (.str "m")
  exact ⟨hw.1, hw.2 (by decide)⟩

end Ploggy
